import Mathlib

/-!
Verification of the analysis core of the Codebase-Genius repository
(src/doc_genie/analyzer.py) against its natural-language specification.

The Python code is shallowly embedded: Python strings become Lean `String`s,
Python lists become Lean `List`s, Python floats (only ever produced from the
decimal literals 0.1, 0.3, 0.5, 0.8, 1.0 by `+`, `*`, `min`, `max`, `round`
and order comparisons — all exact on these values) are modelled as `ℚ`, and
code that can raise an exception returns `Except String α`.
-/

set_option maxRecDepth 100000

namespace CodebaseGenius

/-! ## Python string primitives

Lean models of the Python `str` methods that `analyzer.py` uses.  All of them
operate on the underlying character list. -/

/-- Python str.strip() on a character list: drop leading and trailing
whitespace. -/
def pyStripChars (l : List Char) : List Char :=
  ((l.dropWhile Char.isWhitespace).reverse.dropWhile Char.isWhitespace).reverse

/-- Python str.strip(): remove leading and trailing whitespace. -/
def pyStrip (s : String) : String := String.mk (pyStripChars s.data)

/-- Python str.lower() (all characters in this code base are ASCII, where
Char.toLower agrees with Python). -/
def pyLower (s : String) : String := String.mk (s.data.map Char.toLower)

/-- Split a character list at every character satisfying p, keeping empty
fields; the result is never the empty list.  Shared by the models of Python
s.split(sep) and of re.split on a character class. -/
def splitOnPred (p : Char → Bool) : List Char → List (List Char)
  | [] => [[]]
  | c :: cs =>
      if p c then [] :: splitOnPred p cs
      else
        match splitOnPred p cs with
        | [] => [[c]]
        | f :: rest => (c :: f) :: rest

/-- Python s.split(sep) for a one-character separator: splits at every
occurrence and keeps empty fields (so the result is never the empty list). -/
def pySplitChar (sep : Char) (s : String) : List String :=
  (splitOnPred (fun c => c == sep) s.data).map String.mk

/-- Does the second list start with the first one? -/
def listStarts : List Char → List Char → Bool
  | [], _ => true
  | _ :: _, [] => false
  | p :: ps, c :: cs => p = c && listStarts ps cs

/-- Python s.startswith(pre). -/
def pyStartsWith (s pre : String) : Bool := listStarts pre.data s.data

/-- Python s.endswith(suf). -/
def pyEndsWith (s suf : String) : Bool := listStarts suf.data.reverse s.data.reverse

/-- Does the second list contain the first as a contiguous sub-sequence?
Models the Python substring test `needle in haystack`. -/
def listFindsSub (needle : List Char) : List Char → Bool
  | [] => needle.isEmpty
  | c :: cs => listStarts needle (c :: cs) || listFindsSub needle cs

/-- Python `needle in haystack` on strings. -/
def pyInStr (needle haystack : String) : Bool := listFindsSub needle.data haystack.data

/-- Python s.count(sub) for non-empty sub, fuel-structured so that it reduces
in the kernel: after a match the scan resumes past the matched occurrence.
Each step consumes at least one character, so fuel = length never runs out. -/
def listCountSubAux (needle : List Char) : Nat → List Char → Nat
  | _, [] => 0
  | 0, _ => 0
  | fuel + 1, c :: cs =>
      if listStarts needle (c :: cs) then
        1 + listCountSubAux needle fuel (List.drop (needle.length - 1) cs)
      else
        listCountSubAux needle fuel cs

/-- Python s.count(sub): number of non-overlapping occurrences, scanning left
to right.  (analyzer.py only ever counts non-empty keywords, for which this
matches CPython.) -/
def listCountSub (needle l : List Char) : Nat := listCountSubAux needle l.length l

/-- Python s.count(sub) (non-empty sub). -/
def pyCount (s sub : String) : Nat := listCountSub sub.data s.data

/-- Python s.replace(old, new) for non-empty old, fuel-structured like
listCountSubAux. -/
def listReplaceAux (old new : List Char) : Nat → List Char → List Char
  | _, [] => []
  | 0, l => l
  | fuel + 1, c :: cs =>
      if listStarts old (c :: cs) then
        new ++ listReplaceAux old new fuel (List.drop (old.length - 1) cs)
      else
        c :: listReplaceAux old new fuel cs

/-- Python s.replace(old, new) for non-empty old: replace every
non-overlapping occurrence, scanning left to right. -/
def listReplace (old new l : List Char) : List Char :=
  listReplaceAux old new l.length l

/-- Python s.replace(old, new).  When old is empty CPython interleaves new
around every character; that branch is reproduced for faithfulness (it is
reachable in `_parse_pip_dependencies` when a requirements line starts with an
operator character). -/
def pyReplace (s old new : String) : String :=
  if old.data.isEmpty then
    String.mk (new.data ++ (s.data.map (fun c => c :: new.data)).flatten)
  else String.mk (listReplace old.data new.data s.data)

/-- Python s.lstrip(c) for a one-character strip set. -/
def pyLStripChar (c : Char) (s : String) : String :=
  String.mk (s.data.dropWhile (fun x => x = c))

/-- Python s.rstrip(c) for a one-character strip set. -/
def pyRStripChar (c : Char) (s : String) : String :=
  String.mk ((s.data.reverse.dropWhile (fun x => x = c)).reverse)

/-- pathlib.PurePath(name).suffix for a bare file name: the substring from the
last dot onward, provided that dot is neither the first nor the last
character; otherwise the empty string. -/
def pyPathSuffix (name : String) : String :=
  let l := name.data
  let n := l.length
  match ((List.range n).filter (fun i => l.getD i ' ' = '.')).getLast? with
  | some i => if 0 < i ∧ i < n - 1 then String.mk (l.drop i) else ""
  | none => ""

/-! ## Path Filter

Embedding of the candidate-file filter inside
`GitHubCodebaseAnalyzer.analyze_repository` (analyzer.py lines 1205-1230). -/

/-- The binary/media/archive extension denylist (analyzer.py lines 1205-1206). -/
def excludedExtensions : List String :=
  [".png", ".jpg", ".jpeg", ".gif", ".ico", ".svg",
   ".pdf", ".zip", ".tar", ".gz", ".exe", ".bin"]

/-- One iteration of the .gitignore-pattern loop (analyzer.py lines 1217-1227):
a directory pattern (ends with a slash) matches when the full path starts with
the pattern minus its trailing slashes; a suffix glob matches when the base
name ends with the pattern minus its leading stars; otherwise the pattern must
equal the base name or the full path. -/
def matchesIgnore (filePath fileName pattern : String) : Bool :=
  (pyEndsWith pattern "/" && pyStartsWith filePath (pyRStripChar '/' pattern)) ||
  (pyStartsWith pattern "*." && pyEndsWith fileName (pyLStripChar '*' pattern)) ||
  (pattern = fileName || pattern = filePath)

/-- The `ignored` flag computed by the pattern loop (break ≡ any). -/
def ignoredBy (ignorePatterns : List String) (filePath fileName : String) : Bool :=
  ignorePatterns.any (fun p => matchesIgnore filePath fileName p)

/-- file_name = file_path.split('/')[-1] (analyzer.py line 1212; split never
returns an empty list, so the default is never used). -/
def candFileName (filePath : String) : String :=
  (pySplitChar '/' filePath).getLastD ""

/-- extension = Path(file_name).suffix.lower() (analyzer.py line 1213). -/
def candExtension (filePath : String) : String :=
  pyLower (pyPathSuffix (candFileName filePath))

/-- The path filter: a blob is kept for analysis exactly when it is not
ignored, its size is strictly below 100000 bytes and its lower-cased dotted
extension is not denylisted (analyzer.py line 1229, with `file_name` and
`extension` computed as on lines 1212-1213). -/
def filterCandidate (filePath : String) (size : Nat) (ignorePatterns : List String) : Bool :=
  !(ignoredBy ignorePatterns filePath (candFileName filePath)) &&
    decide (size < 100000) &&
    !(excludedExtensions.contains (candExtension filePath))

/-- Counterexample to C1.  The claim asserts that a file whose extension is
not denylisted and which matches no ignore pattern is rejected exactly when
its size exceeds 100000 bytes, so that a file of exactly 100000 bytes is
accepted.  The code keeps a file only when `size < 100000`, hence the blob
"a.py" of exactly 100000 bytes (extension ".py" not denylisted, empty ignore
set) is rejected even though its size does not exceed 100000. -/
theorem c1_exact_ceiling_counterexample :
    filterCandidate "a.py" 100000 [] = false ∧ ¬ (100000 > 100000) := by
  constructor
  · decide
  · omega

/-- C1 (amended): for every candidate blob whose extension is not in the
binary denylist and whose path matches no ignore pattern, the file is rejected
exactly when its size is at least 100000 bytes; in particular a file of
exactly 100000 bytes is rejected. -/
theorem c1_size_ceiling_amended (filePath : String) (size : Nat)
    (ignorePatterns : List String)
    (hext : excludedExtensions.contains (candExtension filePath) = false)
    (hig : ignoredBy ignorePatterns filePath (candFileName filePath) = false) :
    filterCandidate filePath size ignorePatterns = false ↔ 100000 ≤ size := by
  simp only [filterCandidate, hext, hig, Bool.not_false, Bool.true_and, Bool.and_true]
  simp only [decide_eq_false_iff_not, Nat.not_lt]

/-- Witness for the amended C1 at a concrete input: the blob "a.py" with
size 100000 and no ignore patterns satisfies both hypotheses, and is
rejected since 100000 ≤ 100000. -/
theorem c1_size_ceiling_amended_witness :
    filterCandidate "a.py" 100000 [] = false ↔ 100000 ≤ 100000 :=
  c1_size_ceiling_amended "a.py" 100000 [] (by decide) (by decide)

/-- C9: a candidate file whose extension is denylisted and whose size exceeds
the ceiling is rejected, and its decision is identical under every
ignore-pattern set (the filter is a pure conjunction, so the ignore patterns
cannot influence the outcome for such a file). -/
theorem c9_denylist_oversize_reject (filePath : String) (size : Nat)
    (patternsA patternsB : List String)
    (hext : excludedExtensions.contains (candExtension filePath) = true)
    (hsize : 100000 < size) :
    filterCandidate filePath size patternsA = false ∧
      filterCandidate filePath size patternsA = filterCandidate filePath size patternsB := by
  have hs : decide (size < 100000) = false := by
    simp only [decide_eq_false_iff_not, Nat.not_lt]
    omega
  have hA : filterCandidate filePath size patternsA = false := by
    simp only [filterCandidate, hs, Bool.and_false, Bool.false_and]
  have hB : filterCandidate filePath size patternsB = false := by
    simp only [filterCandidate, hs, Bool.and_false, Bool.false_and]
  exact ⟨hA, hA.trans hB.symm⟩

/-- Witness for C9 at a concrete input: "a.png" (denylisted extension) of
size 200000 is rejected, and the decision agrees between the ignore sets
["a.png"] and []. -/
theorem c9_denylist_oversize_reject_witness :
    filterCandidate "a.png" 200000 ["a.png"] = false ∧
      filterCandidate "a.png" 200000 ["a.png"] = filterCandidate "a.png" 200000 [] :=
  c9_denylist_oversize_reject "a.png" 200000 ["a.png"] [] (by decide) (by omega)

/-- C10: an ignore pattern ending in a slash excludes every blob whose full
path starts with the pattern minus its trailing slashes — a plain prefix test
with no path-segment boundary check. -/
theorem c10_dir_pattern_startswith (filePath pattern : String) (size : Nat)
    (ignorePatterns : List String)
    (hmem : pattern ∈ ignorePatterns)
    (hslash : pyEndsWith pattern "/" = true)
    (hpre : pyStartsWith filePath (pyRStripChar '/' pattern) = true) :
    filterCandidate filePath size ignorePatterns = false := by
  have hig : ignoredBy ignorePatterns filePath (candFileName filePath) = true := by
    simp only [ignoredBy, List.any_eq_true]
    refine ⟨pattern, hmem, ?_⟩
    simp [matchesIgnore, hslash, hpre]
  simp only [filterCandidate, hig, Bool.not_true, Bool.false_and]

/-- Witness for C10: with the ignore set ["dist/"], the paths
"dist/bundle.js", "distribution/file.js" and "distfile.txt" are all
excluded — the last two demonstrate the absence of a path-segment boundary
check. -/
theorem c10_dir_pattern_startswith_witness :
    filterCandidate "dist/bundle.js" 10 ["dist/"] = false ∧
      filterCandidate "distribution/file.js" 10 ["dist/"] = false ∧
      filterCandidate "distfile.txt" 10 ["dist/"] = false :=
  ⟨c10_dir_pattern_startswith "dist/bundle.js" "dist/" 10 ["dist/"] (by decide) (by decide)
      (by decide),
    c10_dir_pattern_startswith "distribution/file.js" "dist/" 10 ["dist/"] (by decide) (by decide)
      (by decide),
    c10_dir_pattern_startswith "distfile.txt" "dist/" 10 ["dist/"] (by decide) (by decide)
      (by decide)⟩

/-! ## Per-file complexity score

Embedding of `CodeAnalyzer._calculate_complexity` (analyzer.py lines 253-263).
Scores are modelled in ℚ; on every value reachable here the Python float
computation and the rational one round to the same two-decimal result. -/

/-- The control-structure keyword list (analyzer.py line 259). -/
def controlStructures : List String :=
  ["if", "for", "while", "switch", "case", "try", "catch"]

/-- Round to the nearest integer, ties to even — the rounding mode of Python's
built-in round(). -/
def roundHalfEven (q : ℚ) : ℤ :=
  let f := ⌊q⌋
  let r := q - f
  if r < 1/2 then f
  else if 1/2 < r then f + 1
  else if f % 2 = 0 then f else f + 1

/-- Python round(q, 2). -/
def pyRound2 (q : ℚ) : ℚ := (roundHalfEven (q * 100) : ℚ) / 100

/-- CodeAnalyzer._calculate_complexity: 0.1 per line, plus 0.5 per
case-insensitive occurrence of each control keyword, rounded to two decimal
places. -/
def calculateComplexity (content : String) : ℚ :=
  let lines := pySplitChar '\n' content
  let base : ℚ := (lines.length : ℚ) * (1 / 10)
  pyRound2 (controlStructures.foldl
    (fun acc k => acc + (pyCount (pyLower content) k : ℚ) * (1 / 2)) base)

/-- C8: the complexity score equals 0.1 × line count plus 0.5 × the sum of the
case-insensitive substring counts of the seven control keywords, rounded to
two decimal places; and a 1000-line file with exactly 5 occurrences of "if",
3 of "for" and none of the other keywords scores exactly 104. -/
theorem c8_complexity_formula :
    (∀ content : String,
      calculateComplexity content =
        pyRound2 ((pySplitChar '\n' content).length * (1 / 10 : ℚ)
          + (controlStructures.map (fun k => (pyCount (pyLower content) k : ℚ))).sum
            * (1 / 2))) ∧
    (∀ content : String,
      (pySplitChar '\n' content).length = 1000 →
      pyCount (pyLower content) "if" = 5 →
      pyCount (pyLower content) "for" = 3 →
      pyCount (pyLower content) "while" = 0 →
      pyCount (pyLower content) "switch" = 0 →
      pyCount (pyLower content) "case" = 0 →
      pyCount (pyLower content) "try" = 0 →
      pyCount (pyLower content) "catch" = 0 →
      calculateComplexity content = 104) := by
  have hformula : ∀ content : String,
      calculateComplexity content =
        pyRound2 ((pySplitChar '\n' content).length * (1 / 10 : ℚ)
          + (controlStructures.map (fun k => (pyCount (pyLower content) k : ℚ))).sum
            * (1 / 2)) := by
    intro content
    simp only [calculateComplexity, controlStructures, List.foldl_cons, List.foldl_nil,
      List.map_cons, List.map_nil, List.sum_cons, List.sum_nil]
    ring_nf
  refine ⟨hformula, ?_⟩
  intro content h0 h1 h2 h3 h4 h5 h6 h7
  rw [hformula content]
  simp only [controlStructures, List.map_cons, List.map_nil, List.sum_cons, List.sum_nil,
    h0, h1, h2, h3, h4, h5, h6, h7]
  norm_num [pyRound2, roundHalfEven]

/-- A concrete 1000-line text with exactly five "if" and three "for"
occurrences and no other control keyword. -/
def c8ExampleContent : String :=
  String.mk (List.replicate 999 '\n' ++ "ifififififforforfor".data)

/-- Witness for C8 at a concrete input: the 1000-line example text scores
exactly 104. -/
theorem c8_complexity_formula_witness : calculateComplexity c8ExampleContent = 104 :=
  c8_complexity_formula.2 c8ExampleContent (by decide) (by decide) (by decide)
    (by decide) (by decide) (by decide) (by decide) (by decide)

/-! ## Python AST analysis

Embedding of `CodeAnalyzer._analyze_python_code` (analyzer.py lines 196-214).
The result of CPython's `ast.parse` is modelled as an `Except`: a parse error,
or a module body — a tree of statements.  Only the constructor kinds the code
discriminates on matter: `ast.FunctionDef`, `ast.AsyncFunctionDef` (a distinct
class, NOT a subclass of `ast.FunctionDef` in CPython) and `ast.ClassDef`;
every other statement is `other`, carrying whatever statements are nested in
it (e.g. the bodies of if/for/while/with blocks). -/

inductive PyStmt where
  | functionDef (name : String) (body : List PyStmt)
  | asyncFunctionDef (name : String) (body : List PyStmt)
  | classDef (name : String) (body : List PyStmt)
  | other (children : List PyStmt)

/-- isinstance(node, ast.FunctionDef). -/
def isFunctionDefNode : PyStmt → Bool
  | .functionDef _ _ => true
  | _ => false

/-- isinstance(node, ast.AsyncFunctionDef). -/
def isAsyncFunctionDefNode : PyStmt → Bool
  | .asyncFunctionDef _ _ => true
  | _ => false

/-- isinstance(node, ast.ClassDef). -/
def isClassDefNode : PyStmt → Bool
  | .classDef _ _ => true
  | _ => false

mutual

/-- ast.walk restricted to statement nodes: the node itself followed by every
node reachable through nested bodies.  (ast.walk visits breadth-first; only
the multiset of visited nodes matters for counting.) -/
def pyWalkStmt : PyStmt → List PyStmt
  | .functionDef n b => .functionDef n b :: pyWalkStmts b
  | .asyncFunctionDef n b => .asyncFunctionDef n b :: pyWalkStmts b
  | .classDef n b => .classDef n b :: pyWalkStmts b
  | .other b => .other b :: pyWalkStmts b

/-- ast.walk over a statement list (a module body or a nested body). -/
def pyWalkStmts : List PyStmt → List PyStmt
  | [] => []
  | s :: ss => pyWalkStmt s ++ pyWalkStmts ss

end

/-- CodeAnalyzer._analyze_python_code: on a parse error the exception is
caught and both counts stay at their initial value 0; otherwise every walked
node is tested with isinstance and the matches are counted. -/
def analyzePythonCounts (parseResult : Except String (List PyStmt)) : Nat × Nat :=
  match parseResult with
  | .error _ => (0, 0)
  | .ok body =>
      let nodes := pyWalkStmts body
      (nodes.countP (fun s => isFunctionDefNode s),
       nodes.countP (fun s => isClassDefNode s))

mutual

/-- Specification-side structural count: the number of nodes satisfying p in
one statement, nested definitions included. -/
def stmtCountP (p : PyStmt → Bool) : PyStmt → Nat
  | .functionDef n b => (if p (.functionDef n b) then 1 else 0) + stmtsCountP p b
  | .asyncFunctionDef n b => (if p (.asyncFunctionDef n b) then 1 else 0) + stmtsCountP p b
  | .classDef n b => (if p (.classDef n b) then 1 else 0) + stmtsCountP p b
  | .other b => (if p (.other b) then 1 else 0) + stmtsCountP p b

/-- Specification-side structural count over a statement list. -/
def stmtsCountP (p : PyStmt → Bool) : List PyStmt → Nat
  | [] => 0
  | s :: ss => stmtCountP p s + stmtsCountP p ss

end

mutual

/-- Counting matches along the walk of one statement agrees with the
structural count. -/
theorem pyWalkStmt_countP (p : PyStmt → Bool) (s : PyStmt) :
    (pyWalkStmt s).countP p = stmtCountP p s := by
  cases s with
  | functionDef n b =>
      simp only [pyWalkStmt, stmtCountP, List.countP_cons, pyWalkStmts_countP p b]
      omega
  | asyncFunctionDef n b =>
      simp only [pyWalkStmt, stmtCountP, List.countP_cons, pyWalkStmts_countP p b]
      omega
  | classDef n b =>
      simp only [pyWalkStmt, stmtCountP, List.countP_cons, pyWalkStmts_countP p b]
      omega
  | other b =>
      simp only [pyWalkStmt, stmtCountP, List.countP_cons, pyWalkStmts_countP p b]
      omega

/-- Counting matches along the walk of a statement list agrees with the
structural count. -/
theorem pyWalkStmts_countP (p : PyStmt → Bool) (l : List PyStmt) :
    (pyWalkStmts l).countP p = stmtsCountP p l := by
  cases l with
  | nil => simp [pyWalkStmts, stmtsCountP]
  | cons s ss =>
      simp only [pyWalkStmts, stmtsCountP, List.countP_append,
        pyWalkStmt_countP p s, pyWalkStmts_countP p ss]

end

/-- Counterexample to C2.  The claim says function_count equals the exact
number of function definitions in the text, nested or not, with no
approximation.  The text "async def f(): pass" parses to a module whose only
statement is an ast.AsyncFunctionDef — a function definition — yet
isinstance(node, ast.FunctionDef) is false for it, so the analyzer reports
function_count = 0 while the text contains one function definition. -/
theorem c2_async_def_counterexample :
    (analyzePythonCounts (Except.ok [PyStmt.asyncFunctionDef "f" []])).1 = 0 ∧
      stmtsCountP (fun s => isFunctionDefNode s || isAsyncFunctionDefNode s)
        [PyStmt.asyncFunctionDef "f" []] = 1 := by
  constructor
  · simp [analyzePythonCounts, pyWalkStmts, pyWalkStmt, isFunctionDefNode]
  · simp [stmtsCountP, stmtCountP, isFunctionDefNode, isAsyncFunctionDefNode]

/-- C2 (amended): for every successfully parsed Python file, function_count
equals the exact number of synchronous function definitions (async def
statements are not counted) and class_count the exact number of class
definitions, both counting top-level and nested definitions; on a parse error
both counts are zero and the analyzer returns normally. -/
theorem c2_python_counts_amended :
    (∀ body : List PyStmt,
      analyzePythonCounts (Except.ok body)
        = (stmtsCountP (fun s => isFunctionDefNode s) body,
           stmtsCountP (fun s => isClassDefNode s) body)) ∧
    (∀ e : String, analyzePythonCounts (Except.error e) = (0, 0)) := by
  constructor
  · intro body
    simp only [analyzePythonCounts, pyWalkStmts_countP]
  · intro e
    rfl

/-! ## Structure of splitOnPred

The first field of a split is the longest separator-free prefix, and when a
separator occurs, the second field is the separator-free run that follows
it.  These mirror how Python indexes split results with [0] and [1]. -/

/-- A split never produces the empty list. -/
theorem splitOnPred_ne_nil (p : Char → Bool) (l : List Char) : splitOnPred p l ≠ [] := by
  cases l with
  | nil => simp [splitOnPred]
  | cons c cs =>
      rw [splitOnPred]
      by_cases h : p c = true
      · simp [h]
      · simp only [h, if_false, Bool.false_eq_true]
        cases splitOnPred p cs <;> simp

/-- Unfolding a split: head is the separator-free prefix, and the tail
restarts after the first separator (empty when there is none). -/
theorem splitOnPred_eq (p : Char → Bool) (l : List Char) :
    splitOnPred p l
      = l.takeWhile (fun c => !(p c)) ::
          (match l.dropWhile (fun c => !(p c)) with
           | [] => ([] : List (List Char))
           | _ :: rest => splitOnPred p rest) := by
  induction l with
  | nil => simp [splitOnPred]
  | cons c cs ih =>
      by_cases h : p c = true
      · simp [splitOnPred, List.takeWhile_cons, List.dropWhile_cons, h]
      · have hb : p c = false := by
          cases hpc : p c
          · rfl
          · exact absurd hpc h
        rw [splitOnPred]
        simp only [hb, Bool.false_eq_true, if_false, List.takeWhile_cons, List.dropWhile_cons,
          Bool.not_false, if_true]
        rw [ih]

/-- The first field of a Python single-character split. -/
theorem pySplitChar_head (sep : Char) (s : String) :
    (pySplitChar sep s).getD 0 "" = String.mk (s.data.takeWhile (fun c => !(c == sep))) := by
  rw [pySplitChar, splitOnPred_eq]
  rfl

/-- The second field of a Python single-character split, when the separator
occurs in the string. -/
theorem pySplitChar_second (sep : Char) (s : String) (h : sep ∈ s.data) :
    (pySplitChar sep s).getD 1 "" =
      String.mk (((s.data.dropWhile (fun c => !(c == sep))).drop 1).takeWhile
        (fun c => !(c == sep))) := by
  rw [pySplitChar, splitOnPred_eq]
  have hne : s.data.dropWhile (fun c => !(c == sep)) ≠ [] := by
    intro hnil
    rw [List.dropWhile_eq_nil_iff] at hnil
    have := hnil sep h
    simp at this
  cases hd : s.data.dropWhile (fun c => !(c == sep)) with
  | nil => exact absurd hd hne
  | cons x rest =>
      simp only [hd, List.map_cons, List.getD_cons_succ, List.drop_succ_cons, List.drop_zero]
      rw [splitOnPred_eq]
      rfl

/-- The substring test for a one-character needle is list membership. -/
theorem listFindsSub_singleton (a : Char) (l : List Char) :
    listFindsSub [a] l = true ↔ a ∈ l := by
  induction l with
  | nil => simp [listFindsSub, List.isEmpty]
  | cons c cs ih =>
      simp only [listFindsSub, listStarts, Bool.and_true, Bool.or_eq_true, decide_eq_true_eq,
        ih, List.mem_cons]

/-- Python `'=' in line` for strings. -/
theorem pyInStr_eq_mem (line : String) : pyInStr "=" line = true ↔ '=' ∈ line.data :=
  listFindsSub_singleton '=' line.data

/-! ## Dependency records and the pip / Pipfile parsers

Embedding of `DependencyAnalyzer` (analyzer.py lines 265-431).  A record is
the dict appended by each parser; the `type` key is called `dtype` here. -/

/-- One dependency record: name, version, ecosystem tag, development flag. -/
structure Dep where
  name : String
  version : String
  dtype : String
  is_dev : Bool
deriving DecidableEq

/-- The character class of re.split(r'[>=<~!]', line). -/
def pipOperatorChars : List Char := ['>', '=', '<', '~', '!']

/-- re.split(r'[>=<~!]', line): split the line at every operator character. -/
def reSplitPipOps (line : String) : List String :=
  (splitOnPred (fun c => pipOperatorChars.contains c) line.data).map String.mk

/-- The first field of the operator split. -/
theorem reSplitPipOps_head (line : String) :
    (reSplitPipOps line).getD 0 ""
      = String.mk (line.data.takeWhile (fun c => !(pipOperatorChars.contains c))) := by
  rw [reSplitPipOps, splitOnPred_eq]
  rfl

/-- One iteration of DependencyAnalyzer._parse_pip_dependencies
(analyzer.py lines 316-327): skip empty and comment lines; the name is
re.split(r'[>=<~!]', line)[0].strip(); the version is the line with every
occurrence of the name removed and stripped, or "*" when that is empty. -/
def parsePipLine? (rawLine : String) : Option Dep :=
  let line := pyStrip rawLine
  if line ≠ "" ∧ pyStartsWith line "#" = false then
    let nameVersion := pyStrip ((reSplitPipOps line).getD 0 "")
    let replaced := pyStrip (pyReplace line nameVersion "")
    some ⟨nameVersion, if replaced = "" then "*" else replaced, "pip", false⟩
  else none

/-- DependencyAnalyzer._parse_pip_dependencies. -/
def parsePipDependencies (content : String) : List Dep :=
  (pySplitChar '\n' content).filterMap parsePipLine?

/-- Modelled from the claim C7 wording: the version obtained by splitting the
line at the FIRST occurrence of an operator character — the remainder of the
line from that character on. -/
def claimPipRemainderVersion (line : String) : String :=
  String.mk (line.data.dropWhile (fun c => !(pipOperatorChars.contains c)))

/-- Counterexample to C7's general rule.  The code computes the version as
line.replace(name, '') which removes EVERY occurrence of the name, not just
the leading one: on the line "x>=x.2" the name is "x" and the code produces
version ">=.2", while splitting at the first operator would give ">=x.2". -/
theorem c7_pip_version_counterexample :
    parsePipDependencies "x>=x.2" = [⟨"x", ">=.2", "pip", false⟩] ∧
      claimPipRemainderVersion "x>=x.2" = ">=x.2" ∧ (">=.2" : String) ≠ ">=x.2" := by
  refine ⟨by decide, by decide, by decide⟩

/-- Modelled from the amended C7 wording, per line: name is the stripped text
before the first operator character; version is the line with every
occurrence of the name removed, stripped, or "*" when that leaves nothing. -/
def pipSpecLine? (rawLine : String) : Option Dep :=
  let line := pyStrip rawLine
  if line ≠ "" ∧ pyStartsWith line "#" = false then
    let name := pyStrip (String.mk (line.data.takeWhile (fun c => !(pipOperatorChars.contains c))))
    let v := pyStrip (pyReplace line name "")
    some ⟨name, if v = "" then "*" else v, "pip", false⟩
  else none

/-- The amended per-line rule applied to every line of the text. -/
def pipSpec (content : String) : List Dep :=
  (pySplitChar '\n' content).filterMap pipSpecLine?

/-- C7 (amended): the scenario "flask>=2.0\n# comment\nrequests\n" yields
exactly the two records {flask, >=2.0} and {requests, *}; and in general each
non-empty non-comment line yields one record whose name is the stripped text
before the first operator character and whose version is the line with every
occurrence of that name removed (stripped), defaulting to "*" when empty. -/
theorem c7_pip_requirements_amended :
    parsePipDependencies "flask>=2.0\n# comment\nrequests\n"
        = [⟨"flask", ">=2.0", "pip", false⟩, ⟨"requests", "*", "pip", false⟩] ∧
      ∀ content : String, parsePipDependencies content = pipSpec content := by
  constructor
  · decide
  · intro content
    rw [parsePipDependencies, pipSpec]
    have hline : parsePipLine? = pipSpecLine? := by
      funext rawLine
      rw [parsePipLine?, pipSpecLine?, reSplitPipOps_head]
    rw [hline]

/-! ## Pipfile parser -/

/-- One iteration of DependencyAnalyzer._parse_pipfile_dependencies
(analyzer.py lines 338-351): a stripped line that starts with '[' and ends
with ']' switches the current section to its bracket contents; otherwise a
line containing '=' while the section is packages or dev-packages yields a
record with name line.split('=')[0].strip() and version
line.split('=')[1].strip().replace('"', ''). -/
def parsePipfileStep (st : String × List Dep) (rawLine : String) : String × List Dep :=
  let line := pyStrip rawLine
  if pyStartsWith line "[" = true ∧ pyEndsWith line "]" = true then
    (String.mk ((line.data.drop 1).dropLast), st.2)
  else if pyInStr "=" line = true ∧ (st.1 = "packages" ∨ st.1 = "dev-packages") then
    (st.1, st.2 ++ [⟨pyStrip ((pySplitChar '=' line).getD 0 ""),
      pyReplace (pyStrip ((pySplitChar '=' line).getD 1 "")) "\"" "",
      "pipenv", decide (st.1 = "dev-packages")⟩])
  else st

/-- DependencyAnalyzer._parse_pipfile_dependencies. -/
def parsePipfileDependencies (content : String) : List Dep :=
  ((pySplitChar '\n' content).foldl parsePipfileStep ("", [])).2

/-- Modelled from the claim C3 wording: the ENTIRE right-hand side after the
first '=' of the line, stripped, with surrounding double quotes removed. -/
def claimPipfileRhsVersion (line : String) : String :=
  let rhs := pyStrip (String.mk ((line.data.dropWhile (fun c => !(c == '='))).drop 1))
  if pyStartsWith rhs "\"" = true ∧ pyEndsWith rhs "\"" = true ∧ 2 ≤ rhs.data.length then
    String.mk ((rhs.data.drop 1).dropLast)
  else rhs

/-- Counterexample to C3.  The code computes the version as
line.split('=')[1], the text between the FIRST and SECOND '=' of the line —
not the entire right-hand side.  On the [packages] line "requests = a=b" the
code produces version "a" while the entire right-hand side (with surrounding
quotes stripped) is "a=b". -/
theorem c3_pipfile_version_counterexample :
    (parsePipfileDependencies "[packages]\nrequests = a=b").map (fun d => d.version)
        = ["a"] ∧
      claimPipfileRhsVersion "requests = a=b" = "a=b" ∧ ("a" : String) ≠ "a=b" := by
  refine ⟨by decide, by decide, by decide⟩

/-- Modelled from the amended C3 wording, for one dependency line: name is
the text before the first '=', stripped; version is the text between the
first and second '=' (the whole remainder when the line has a single '='),
stripped, with every double-quote character removed; is_dev exactly when the
current section is dev-packages. -/
def pipfileSpecRecord (sec line : String) : Dep :=
  ⟨pyStrip (String.mk (line.data.takeWhile (fun c => !(c == '=')))),
   pyReplace (pyStrip (String.mk (((line.data.dropWhile (fun c => !(c == '='))).drop 1).takeWhile
     (fun c => !(c == '='))))) "\"" "",
   "pipenv", decide (sec = "dev-packages")⟩

/-- Modelled from the amended C3 wording, over the lines of the file:
bracketed lines switch the section; only '='-lines inside packages or
dev-packages produce records. -/
def pipfileSpecLines : String → List String → List Dep
  | _, [] => []
  | sec, rawLine :: rest =>
      let line := pyStrip rawLine
      if pyStartsWith line "[" = true ∧ pyEndsWith line "]" = true then
        pipfileSpecLines (String.mk ((line.data.drop 1).dropLast)) rest
      else if pyInStr "=" line = true ∧ (sec = "packages" ∨ sec = "dev-packages") then
        pipfileSpecRecord sec line :: pipfileSpecLines sec rest
      else
        pipfileSpecLines sec rest

/-- The record built by the code equals the record described by the amended
claim, whenever the line contains '='. -/
theorem pipfileRecord_eq (sec line : String) (h : pyInStr "=" line = true) :
    (⟨pyStrip ((pySplitChar '=' line).getD 0 ""),
      pyReplace (pyStrip ((pySplitChar '=' line).getD 1 "")) "\"" "",
      "pipenv", decide (sec = "dev-packages")⟩ : Dep)
      = pipfileSpecRecord sec line := by
  have hm : '=' ∈ line.data := (pyInStr_eq_mem line).1 h
  rw [pipfileSpecRecord, pySplitChar_head, pySplitChar_second '=' line hm]

/-- The fold of the code-side step function, started on any section and
accumulator, produces the accumulator followed by the amended-claim records. -/
theorem parsePipfile_foldl (lines : List String) : ∀ (sec : String) (acc : List Dep),
    (lines.foldl parsePipfileStep (sec, acc)).2 = acc ++ pipfileSpecLines sec lines := by
  induction lines with
  | nil =>
      intro sec acc
      simp [pipfileSpecLines]
  | cons rawLine rest ih =>
      intro sec acc
      rw [List.foldl_cons, pipfileSpecLines]
      by_cases h1 : pyStartsWith (pyStrip rawLine) "[" = true ∧
          pyEndsWith (pyStrip rawLine) "]" = true
      · rw [parsePipfileStep]
        simp only [h1, if_true, and_self, ih]
      · by_cases h2 : pyInStr "=" (pyStrip rawLine) = true ∧
            (sec = "packages" ∨ sec = "dev-packages")
        · rw [parsePipfileStep]
          simp only [h1, h2, if_false, if_true, ih, pipfileRecord_eq sec (pyStrip rawLine) h2.1]
          simp
        · rw [parsePipfileStep]
          simp only [h1, h2, if_false, ih]

/-- C3 (amended): exactly the non-bracket lines inside a [packages] or
[dev-packages] section that contain '=' produce a record; its name is the
stripped text before the first '=', its version is the text between the first
and second '=' (the whole remainder when there is a single '='), stripped,
with every double-quote character removed, and is_dev holds exactly when the
section is dev-packages. -/
theorem c3_pipfile_sections_amended : ∀ content : String,
    parsePipfileDependencies content = pipfileSpecLines "" (pySplitChar '\n' content) := by
  intro content
  rw [parsePipfileDependencies, parsePipfile_foldl]
  simp

/-! ## Cargo, go.mod and Maven parsers -/

/-- One iteration of DependencyAnalyzer._parse_cargo_dependencies
(analyzer.py lines 361-376): enter the section on the exact line
"[dependencies]", leave on any other bracketed line, and inside the section
every '='-line yields a record like in the Pipfile parser. -/
def parseCargoStep (st : Bool × List Dep) (rawLine : String) : Bool × List Dep :=
  let line := pyStrip rawLine
  if line = "[dependencies]" then (true, st.2)
  else if pyStartsWith line "[" = true ∧ line ≠ "[dependencies]" then (false, st.2)
  else if st.1 = true ∧ pyInStr "=" line = true then
    (st.1, st.2 ++ [⟨pyStrip ((pySplitChar '=' line).getD 0 ""),
      pyReplace (pyStrip ((pySplitChar '=' line).getD 1 "")) "\"" "",
      "cargo", false⟩])
  else st

/-- DependencyAnalyzer._parse_cargo_dependencies. -/
def parseCargoDependencies (content : String) : List Dep :=
  ((pySplitChar '\n' content).foldl parseCargoStep (false, [])).2

/-- Python str.split() with no argument, fuel-structured: split at runs of
whitespace, discarding empty fields. -/
def wsWordsAux : Nat → List Char → List (List Char)
  | 0, _ => []
  | _, [] => []
  | fuel + 1, c :: cs =>
      if c.isWhitespace then wsWordsAux fuel cs
      else ((c :: cs).takeWhile (fun x => !x.isWhitespace))
        :: wsWordsAux fuel ((c :: cs).dropWhile (fun x => !x.isWhitespace))

/-- Python s.split() (whitespace split). -/
def pySplitWS (s : String) : List String :=
  (wsWordsAux s.data.length s.data).map String.mk

/-- One line of DependencyAnalyzer._parse_go_dependencies (analyzer.py lines
384-394): a line is a candidate when it contains "require", or contains " v"
and is neither the module line nor the go directive; the word "require" is
removed, the line stripped and whitespace-split, and the first two tokens
become name and version. -/
def parseGoLine? (rawLine : String) : Option Dep :=
  let line := pyStrip rawLine
  if pyInStr "require" line = true ∨
      (pyInStr " v" line = true ∧ pyStartsWith line "module" = false ∧
        pyStartsWith line "go " = false) then
    let parts := pySplitWS (pyStrip (pyReplace line "require" ""))
    if 2 ≤ parts.length then some ⟨parts.getD 0 "", parts.getD 1 "", "go", false⟩
    else none
  else none

/-- DependencyAnalyzer._parse_go_dependencies. -/
def parseGoDependencies (content : String) : List Dep :=
  (pySplitChar '\n' content).filterMap parseGoLine?

/-- Match a literal piece of the Maven regex. -/
def chompLit (lit l : List Char) : Option (List Char) :=
  if listStarts lit l then some (l.drop lit.length) else none

/-- Match the greedy group `[^<]+` of the Maven regex: the non-empty run up to
the next '<'. -/
def chompGroup (l : List Char) : Option (List Char × List Char) :=
  let g := l.takeWhile (fun c => !(c == '<'))
  if g.isEmpty then none else some (g, l.drop g.length)

/-- One attempt, at the current position, of the regex used by
DependencyAnalyzer._parse_maven_dependencies (analyzer.py line 403):
groupId/artifactId/version element triples separated by optional whitespace.
The pattern is backtracking-free because `[^<]+` and `\s*` cannot overlap the
literal that follows them, so this direct scan agrees with re.findall. -/
def mavenTryMatch (l : List Char) :
    Option ((List Char × List Char × List Char) × List Char) := do
  let l1 ← chompLit "<groupId>".data l
  let (g, l2) ← chompGroup l1
  let l3 ← chompLit "</groupId>".data l2
  let l4 := l3.dropWhile Char.isWhitespace
  let l5 ← chompLit "<artifactId>".data l4
  let (a, l6) ← chompGroup l5
  let l7 ← chompLit "</artifactId>".data l6
  let l8 := l7.dropWhile Char.isWhitespace
  let l9 ← chompLit "<version>".data l8
  let (v, l10) ← chompGroup l9
  let l11 ← chompLit "</version>".data l10
  pure ((g, a, v), l11)

/-- re.findall for the Maven pattern: try to match at every position, left to
right, resuming after the end of each match; each match yields one record
named group:artifact. -/
def mavenScanAux : Nat → List Char → List Dep
  | 0, _ => []
  | _, [] => []
  | fuel + 1, c :: cs =>
      match mavenTryMatch (c :: cs) with
      | some ((g, a, v), rest) =>
          ⟨String.mk (g ++ ':' :: a), String.mk v, "maven", false⟩ :: mavenScanAux fuel rest
      | none => mavenScanAux fuel cs

/-- DependencyAnalyzer._parse_maven_dependencies. -/
def parseMavenDependencies (content : String) : List Dep :=
  mavenScanAux content.data.length content.data

/-! ## JSON model for the npm and Composer parsers

`json.loads` is CPython standard-library code, not part of this repository;
it is modelled here as a recursive-descent parser producing a `JVal`.
Object keys follow Python dict semantics (duplicate keys keep the last value
at the first position).  String escapes are simplified to "backslash makes
the next character literal", which is faithful on every input these claims
evaluate. -/

inductive JVal where
  | jnull
  | jbool (b : Bool)
  | jnum (text : String)
  | jstr (s : String)
  | jarr (items : List JVal)
  | jobj (fields : List (String × JVal))

/-- JSON whitespace. -/
def jsonWs (c : Char) : Bool := c == ' ' || c == '\t' || c == '\n' || c == '\r'

/-- Characters that may continue a JSON number. -/
def jNumChar (c : Char) : Bool :=
  c.isDigit || c == '-' || c == '+' || c == '.' || c == 'e' || c == 'E'

/-- The object braces, kept out of string literals. -/
def jLBrace : Char := Char.ofNat 123

/-- Closing object brace. -/
def jRBrace : Char := Char.ofNat 125

/-- Parse a JSON string body after the opening quote. -/
def jParseStringAux : Nat → List Char → Except String (List Char × List Char)
  | 0, _ => .error "Unterminated string"
  | _, [] => .error "Unterminated string"
  | fuel + 1, c :: cs =>
      if c == '"' then .ok ([], cs)
      else if c == '\\' then
        match cs with
        | [] => .error "Unterminated string"
        | e :: cs2 => do
            let (body, rest) ← jParseStringAux fuel cs2
            .ok (e :: body, rest)
      else do
        let (body, rest) ← jParseStringAux fuel cs
        .ok (c :: body, rest)

/-- Insert into a Python-dict-like field list: an existing key is overwritten
in place, a new key is appended. -/
def jobjInsert (fields : List (String × JVal)) (key : String) (v : JVal) :
    List (String × JVal) :=
  match fields with
  | [] => [(key, v)]
  | kv :: rest => if kv.1 == key then (key, v) :: rest else kv :: jobjInsert rest key v

mutual

/-- Parse one JSON value (leading whitespace allowed). -/
def jParse : Nat → List Char → Except String (JVal × List Char)
  | 0, _ => .error "Expecting value"
  | fuel + 1, l =>
      match l.dropWhile jsonWs with
      | [] => .error "Expecting value"
      | c :: cs =>
          if c == '"' then do
            let (body, rest) ← jParseStringAux (cs.length + 1) cs
            .ok (.jstr (String.mk body), rest)
          else if c == jLBrace then do
            let (pairs, rest) ← jParseObjItems fuel true cs
            .ok (.jobj (pairs.foldl (fun d kv => jobjInsert d kv.1 kv.2) []), rest)
          else if c == '[' then do
            let (items, rest) ← jParseArrItems fuel true cs
            .ok (.jarr items, rest)
          else if listStarts "true".data (c :: cs) then .ok (.jbool true, (c :: cs).drop 4)
          else if listStarts "false".data (c :: cs) then .ok (.jbool false, (c :: cs).drop 5)
          else if listStarts "null".data (c :: cs) then .ok (.jnull, (c :: cs).drop 4)
          else if c.isDigit || c == '-' then
            let num := (c :: cs).takeWhile jNumChar
            .ok (.jnum (String.mk num), (c :: cs).drop num.length)
          else .error "Expecting value"

/-- Parse the members of an object after its opening brace; allowEnd permits
an immediate closing brace (empty object). -/
def jParseObjItems : Nat → Bool → List Char → Except String (List (String × JVal) × List Char)
  | 0, _, _ => .error "Expecting property name"
  | fuel + 1, allowEnd, l =>
      match l.dropWhile jsonWs with
      | [] => .error "Expecting property name"
      | c :: cs =>
          if c == jRBrace && allowEnd then .ok ([], cs)
          else if c == '"' then do
            let (key, r1) ← jParseStringAux (cs.length + 1) cs
            match r1.dropWhile jsonWs with
            | [] => .error "Expecting colon"
            | ch :: r3 =>
                if ch == ':' then do
                  let (v, r4) ← jParse fuel r3
                  match r4.dropWhile jsonWs with
                  | [] => .error "Expecting delimiter"
                  | ch2 :: r6 =>
                      if ch2 == ',' then do
                        let (restFields, r7) ← jParseObjItems fuel false r6
                        .ok ((String.mk key, v) :: restFields, r7)
                      else if ch2 == jRBrace then .ok ([(String.mk key, v)], r6)
                      else .error "Expecting delimiter"
                else .error "Expecting colon"
          else .error "Expecting property name"

/-- Parse the items of an array after its opening bracket; allowEnd permits
an immediate closing bracket (empty array). -/
def jParseArrItems : Nat → Bool → List Char → Except String (List JVal × List Char)
  | 0, _, _ => .error "Expecting value"
  | fuel + 1, allowEnd, l =>
      match l.dropWhile jsonWs with
      | [] => .error "Expecting value"
      | c :: cs =>
          if c == ']' && allowEnd then .ok ([], cs)
          else do
            let (v, r1) ← jParse fuel (c :: cs)
            match r1.dropWhile jsonWs with
            | [] => .error "Expecting delimiter"
            | ch :: r2 =>
                if ch == ',' then do
                  let (items, r3) ← jParseArrItems fuel false r2
                  .ok (v :: items, r3)
                else if ch == ']' then .ok ([v], r2)
                else .error "Expecting delimiter"

end

/-- json.loads: parse one value and require only whitespace after it. -/
def jsonLoads (s : String) : Except String JVal := do
  let (v, rest) ← jParse (s.data.length + 1) s.data
  if (rest.dropWhile jsonWs).isEmpty then .ok v else .error "Extra data"

/-- Python `key in data` on a decoded JSON value: key containment for dicts,
membership for lists, substring test for strings; TypeError otherwise. -/
def pyJContains (data : JVal) (key : String) : Except String Bool :=
  match data with
  | .jobj fields => .ok (fields.any (fun kv => kv.1 == key))
  | .jarr items =>
      .ok (items.any (fun v => match v with | .jstr s => s == key | _ => false))
  | .jstr s => .ok (pyInStr key s)
  | _ => .error "TypeError: argument is not iterable"

/-- Python `data[key]`: dict lookup; TypeError on lists and strings indexed
by a string. -/
def pyJGetItem (data : JVal) (key : String) : Except String JVal :=
  match data with
  | .jobj fields =>
      match fields.find? (fun kv => kv.1 == key) with
      | some kv => .ok kv.2
      | none => .error "KeyError"
  | _ => .error "TypeError: indices"

/-- Python `data.items()`: AttributeError on anything but a dict. -/
def pyJItems (data : JVal) : Except String (List (String × JVal)) :=
  match data with
  | .jobj fields => .ok fields
  | _ => .error "AttributeError: items"

/-- Rendering of the version value stored in the record.  Python stores the
decoded object itself; in well-formed manifests it is always a string, and no
claim inspects the non-string renderings. -/
def jValVersionText : JVal → String
  | .jstr s => s
  | .jnum t => t
  | .jbool b => if b then "True" else "False"
  | .jnull => "None"
  | .jarr _ => "a list"
  | .jobj _ => "a dict"

/-- One dep_type pass of the npm/Composer parser body (analyzer.py lines
300-308 and 421-429): if the key is present, every entry of that map becomes
one record. -/
def npmSection (data : JVal) (depType ecosystem : String) (isDev : Bool)
    (acc : List Dep) : Except String (List Dep) := do
  let present ← pyJContains data depType
  if present then
    let inner ← pyJGetItem data depType
    let fields ← pyJItems inner
    .ok (acc ++ fields.map (fun kv => ⟨kv.1, jValVersionText kv.2, ecosystem, isDev⟩))
  else .ok acc

/-- DependencyAnalyzer._parse_npm_dependencies: json.loads, then the
dependencies and devDependencies maps. -/
def parseNpmDependencies (content : String) : Except String (List Dep) := do
  let data ← jsonLoads content
  let acc1 ← npmSection data "dependencies" "npm" false []
  npmSection data "devDependencies" "npm" true acc1

/-- DependencyAnalyzer._parse_composer_dependencies: json.loads, then the
require and require-dev maps. -/
def parseComposerDependencies (content : String) : Except String (List Dep) := do
  let data ← jsonLoads content
  let acc1 ← npmSection data "require" "composer" false []
  npmSection data "require-dev" "composer" true acc1

/-- Did the computation return normally? -/
def isOkE {α : Type} (e : Except String α) : Bool :=
  match e with
  | .ok _ => true
  | .error _ => false

/-- The parser registry (DependencyAnalyzer.__init__, analyzer.py lines
268-277); parsers that contain no raising operation are wrapped in .ok. -/
def packageManagers : List (String × (String → Except String (List Dep))) :=
  [("package.json", parseNpmDependencies),
   ("requirements.txt", fun s => .ok (parsePipDependencies s)),
   ("Pipfile", fun s => .ok (parsePipfileDependencies s)),
   ("Cargo.toml", fun s => .ok (parseCargoDependencies s)),
   ("go.mod", fun s => .ok (parseGoDependencies s)),
   ("pom.xml", fun s => .ok (parseMavenDependencies s)),
   ("composer.json", parseComposerDependencies)]

/-- One registry entry of DependencyAnalyzer.analyze_repository (analyzer.py
lines 283-291): fetch the manifest, skip it when empty, catch any exception
from its parser (contributing nothing), and otherwise extend the list. -/
def depFoldStep (fetch : String → String) (acc : List Dep)
    (entry : String × (String → Except String (List Dep))) : List Dep :=
  let content := fetch entry.1
  if content ≠ "" then
    match entry.2 content with
    | .ok ds => acc ++ ds
    | .error _ => acc
  else acc

/-- DependencyAnalyzer.analyze_repository (analyzer.py lines 279-293). -/
def analyzeRepositoryDeps (fetch : String → String) : List Dep :=
  packageManagers.foldl (depFoldStep fetch) []

/-- A failing parser contributes nothing and raises nothing to the loop. -/
theorem depFoldStep_error (fetch : String → String) (acc : List Dep) (nm : String)
    (p : String → Except String (List Dep)) (h : isOkE (p (fetch nm)) = false) :
    depFoldStep fetch acc (nm, p) = acc := by
  show (if fetch nm ≠ "" then
      match p (fetch nm) with
      | Except.ok ds => acc ++ ds
      | Except.error _ => acc
    else acc) = acc
  by_cases hc : fetch nm ≠ ""
  · rw [if_pos hc]
    cases hp : p (fetch nm) with
    | ok ds => rw [hp] at h; simp [isOkE] at h
    | error e => rfl
  · rw [if_neg hc]

/-- A non-raising parser contributes its records when the manifest is
non-empty. -/
theorem depFoldStep_ok (fetch : String → String) (acc : List Dep) (nm : String)
    (f : String → List Dep) :
    depFoldStep fetch acc (nm, fun s => Except.ok (f s))
      = acc ++ (if fetch nm ≠ "" then f (fetch nm) else []) := by
  show (if fetch nm ≠ "" then acc ++ f (fetch nm) else acc)
      = acc ++ (if fetch nm ≠ "" then f (fetch nm) else [])
  by_cases hc : fetch nm ≠ ""
  · rw [if_pos hc, if_pos hc]
  · rw [if_neg hc, if_neg hc, List.append_nil]

/-- Counterexample to C4.  The claim says each of the seven parsers returns a
record sequence without raising on every input, but the npm and Composer
parsers call json.loads, which raises on text that is not JSON; the parsers
propagate that exception (it is the caller that catches it). -/
theorem c4_npm_raises_counterexample :
    isOkE (parseNpmDependencies "not json") = false ∧
      isOkE (parseComposerDependencies "not json") = false := by
  refine ⟨by decide, by decide⟩

/-- C4 (amended): the five line- or regex-oriented parsers (pip, Pipfile,
Cargo, go.mod, Maven) cannot raise; the npm and Composer parsers raise on
malformed JSON, but DependencyAnalyzer.analyze_repository catches each
parser's exception, so a run where both JSON manifests are malformed still
returns exactly the records of the remaining five manifests; malformed
Pipfile or Cargo sections contribute zero records. -/
theorem c4_manifest_parsers_amended (fetch : String → String)
    (hnpm : isOkE (parseNpmDependencies (fetch "package.json")) = false)
    (hcomposer : isOkE (parseComposerDependencies (fetch "composer.json")) = false) :
    analyzeRepositoryDeps fetch
        = (if fetch "requirements.txt" ≠ ""
            then parsePipDependencies (fetch "requirements.txt") else [])
          ++ (if fetch "Pipfile" ≠ ""
            then parsePipfileDependencies (fetch "Pipfile") else [])
          ++ (if fetch "Cargo.toml" ≠ ""
            then parseCargoDependencies (fetch "Cargo.toml") else [])
          ++ (if fetch "go.mod" ≠ ""
            then parseGoDependencies (fetch "go.mod") else [])
          ++ (if fetch "pom.xml" ≠ ""
            then parseMavenDependencies (fetch "pom.xml") else []) ∧
      parsePipfileDependencies "[packages\nrequests = \"*\"" = [] ∧
      parseCargoDependencies "[dependencies\nserde = \"1\"" = [] := by
  refine ⟨?_, by decide, by decide⟩
  simp only [analyzeRepositoryDeps, packageManagers, List.foldl_cons, List.foldl_nil]
  rw [depFoldStep_error fetch [] "package.json" parseNpmDependencies hnpm,
    depFoldStep_ok, depFoldStep_ok, depFoldStep_ok, depFoldStep_ok, depFoldStep_ok,
    depFoldStep_error fetch _ "composer.json" parseComposerDependencies hcomposer]
  simp [List.append_assoc]

/-- A fetch collaborator returning malformed JSON manifests, a malformed
Pipfile, a malformed Cargo.toml and nothing else. -/
def c4FetchMalformed : String → String :=
  fun name =>
    if name = "package.json" then "not json"
    else if name = "composer.json" then "also not json"
    else if name = "Pipfile" then "[packages\nrequests = \"*\""
    else if name = "Cargo.toml" then "[dependencies\nserde = \"1\""
    else ""

/-- Witness for the amended C4: with both JSON manifests malformed and
malformed Pipfile/Cargo sections, the analysis loop returns normally. -/
theorem c4_manifest_parsers_amended_witness :
    analyzeRepositoryDeps c4FetchMalformed
        = (if c4FetchMalformed "requirements.txt" ≠ ""
            then parsePipDependencies (c4FetchMalformed "requirements.txt") else [])
          ++ (if c4FetchMalformed "Pipfile" ≠ ""
            then parsePipfileDependencies (c4FetchMalformed "Pipfile") else [])
          ++ (if c4FetchMalformed "Cargo.toml" ≠ ""
            then parseCargoDependencies (c4FetchMalformed "Cargo.toml") else [])
          ++ (if c4FetchMalformed "go.mod" ≠ ""
            then parseGoDependencies (c4FetchMalformed "go.mod") else [])
          ++ (if c4FetchMalformed "pom.xml" ≠ ""
            then parseMavenDependencies (c4FetchMalformed "pom.xml") else []) ∧
      parsePipfileDependencies "[packages\nrequests = \"*\"" = [] ∧
      parseCargoDependencies "[dependencies\nserde = \"1\"" = [] :=
  c4_manifest_parsers_amended c4FetchMalformed (by decide) (by decide)

/-! ## A small regex engine for the technology patterns

`TechnologyDetector` (analyzer.py lines 433-530) matches a fixed catalog of
patterns with re.findall(pattern, content, re.IGNORECASE | re.MULTILINE).
Every pattern in the catalog is built from literal characters, escaped
literals, the character class of a quote pair, and at most one greedy `.*`;
no pattern uses anchors, so re.MULTILINE is inert.  The engine below
implements exactly these constructs, fuel-structured so it reduces in the
kernel. -/

/-- A simple regex atom: literal character, the wildcard dot, or a character
class. -/
inductive SAtom where
  | lit (c : Char)
  | dot
  | cls (cs : List Char)

/-- A compiled regex element: one atom or a greedy starred atom. -/
inductive RAtom where
  | one (a : SAtom)
  | star (a : SAtom)

/-- Case-insensitive atom match (re.IGNORECASE); the dot does not match a
newline (re.DOTALL is not passed). -/
def sAtomMatch (a : SAtom) (x : Char) : Bool :=
  match a with
  | .lit c => c.toLower == x.toLower
  | .dot => !(x == '\n')
  | .cls cs => cs.any (fun c => c.toLower == x.toLower)

mutual

/-- Match a pattern at the start of the text, returning the remaining text;
a starred atom is greedy and backtracks, as in Python's engine. -/
def reMatchAux : Nat → List RAtom → List Char → Option (List Char)
  | 0, _, _ => none
  | _ + 1, [], s => some s
  | _ + 1, .one _ :: _, [] => none
  | fuel + 1, .one a :: ps, c :: cs =>
      if sAtomMatch a c then reMatchAux fuel ps cs else none
  | fuel + 1, .star a :: ps, s =>
      reStarAux fuel ps s ((s.takeWhile (sAtomMatch a)).length)

/-- Try the continuations of a greedy star from the longest run downward. -/
def reStarAux : Nat → List RAtom → List Char → Nat → Option (List Char)
  | 0, _, _, _ => none
  | fuel + 1, ps, s, 0 => reMatchAux fuel ps s
  | fuel + 1, ps, s, k + 1 =>
      match reMatchAux fuel ps (s.drop (k + 1)) with
      | some r => some r
      | none => reStarAux fuel ps s k

end

/-- Fuel that is ample for the patterns of the catalog (at most one star). -/
def reFuel (p : List RAtom) (s : List Char) : Nat :=
  (p.length + 2) * (s.length + 2)

/-- One match attempt at the current position. -/
def reTry (p : List RAtom) (s : List Char) : Option (List Char) :=
  reMatchAux (reFuel p s) p s

/-- len(re.findall(pattern, content)): try to match at every position, left
to right, resuming after the end of each non-empty match (and past one
character after an empty match, as Python does). -/
def reCountAux (p : List RAtom) : Nat → List Char → Nat
  | 0, _ => 0
  | _ + 1, [] =>
      match reTry p [] with
      | some _ => 1
      | none => 0
  | fuel + 1, c :: cs =>
      match reTry p (c :: cs) with
      | some r =>
          if r.length < cs.length + 1 then 1 + reCountAux p fuel r
          else 1 + reCountAux p fuel cs
      | none => reCountAux p fuel cs

/-- Number of re.findall matches of the compiled pattern in the content. -/
def reCount (p : List RAtom) (content : String) : Nat :=
  reCountAux p (content.data.length + 1) content.data

/-- Compile a run of literal characters. -/
def rlits (s : String) : List RAtom :=
  s.data.map (fun c => RAtom.one (SAtom.lit c))

/-- The quote class ['"] that several catalog patterns use. -/
def quoteCls : RAtom := RAtom.one (SAtom.cls [Char.ofNat 39, '"'])

/-- The greedy wildcard `.*`. -/
def dotStar : RAtom := RAtom.star SAtom.dot

/-- One catalog pattern: the raw Python pattern string (used verbatim by the
denylist test and the dependency-name substring test) and its compiled
form. -/
structure RePat where
  raw : String
  atoms : List RAtom

/-- The fixed technology catalog (TechnologyDetector.__init__, analyzer.py
lines 437-461): three categories, each mapping a technology name to its
ordered pattern list. -/
def technologyPatterns : List (String × List (String × List RePat)) :=
  [("frameworks",
    [("React",
      [⟨"import.*react", rlits "import" ++ [dotStar] ++ rlits "react"⟩,
       ⟨"from [\x27\"]react[\x27\"]",
        rlits "from " ++ [quoteCls] ++ rlits "react" ++ [quoteCls]⟩,
       ⟨"react", rlits "react"⟩]),
     ("Angular",
      [⟨"@angular", rlits "@angular"⟩,
       ⟨"ng\\.", rlits "ng" ++ [RAtom.one (SAtom.lit '.')]⟩,
       ⟨"angular", rlits "angular"⟩]),
     ("Vue",
      [⟨"import.*vue", rlits "import" ++ [dotStar] ++ rlits "vue"⟩,
       ⟨"from [\x27\"]vue[\x27\"]",
        rlits "from " ++ [quoteCls] ++ rlits "vue" ++ [quoteCls]⟩,
       ⟨"vue", rlits "vue"⟩]),
     ("Django",
      [⟨"from django", rlits "from django"⟩,
       ⟨"import django", rlits "import django"⟩,
       ⟨"django", rlits "django"⟩]),
     ("Flask",
      [⟨"from flask", rlits "from flask"⟩,
       ⟨"import flask", rlits "import flask"⟩,
       ⟨"flask", rlits "flask"⟩]),
     ("Express",
      [⟨"express\\(\\)", rlits "express()"⟩,
       ⟨"require\\([\x27\"]express[\x27\"]",
        rlits "require(" ++ [quoteCls] ++ rlits "express" ++ [quoteCls]⟩,
       ⟨"express", rlits "express"⟩]),
     ("Spring Boot",
      [⟨"@SpringBootApplication", rlits "@SpringBootApplication"⟩,
       ⟨"spring-boot", rlits "spring-boot"⟩,
       ⟨"spring", rlits "spring"⟩]),
     ("Laravel",
      [⟨"use Illuminate", rlits "use Illuminate"⟩,
       ⟨"laravel/framework", rlits "laravel/framework"⟩,
       ⟨"laravel", rlits "laravel"⟩])]),
   ("databases",
    [("MongoDB",
      [⟨"mongodb://", rlits "mongodb://"⟩,
       ⟨"mongoose", rlits "mongoose"⟩,
       ⟨"pymongo", rlits "pymongo"⟩,
       ⟨"mongodb", rlits "mongodb"⟩]),
     ("PostgreSQL",
      [⟨"postgresql://", rlits "postgresql://"⟩,
       ⟨"psycopg2", rlits "psycopg2"⟩,
       ⟨"pg", rlits "pg"⟩,
       ⟨"postgresql", rlits "postgresql"⟩]),
     ("MySQL",
      [⟨"mysql://", rlits "mysql://"⟩,
       ⟨"mysql2", rlits "mysql2"⟩,
       ⟨"pymysql", rlits "pymysql"⟩,
       ⟨"mysql", rlits "mysql"⟩]),
     ("Redis",
      [⟨"redis://", rlits "redis://"⟩,
       ⟨"redis", rlits "redis"⟩,
       ⟨"jedis", rlits "jedis"⟩,
       ⟨"redis", rlits "redis"⟩]),
     ("SQLite",
      [⟨"sqlite3", rlits "sqlite3"⟩,
       ⟨"sqlite", rlits "sqlite"⟩,
       ⟨"better-sqlite3", rlits "better-sqlite3"⟩,
       ⟨"sqlite", rlits "sqlite"⟩])]),
   ("testing",
    [("Jest",
      [⟨"describe\\(", rlits "describe("⟩,
       ⟨"test\\(", rlits "test("⟩,
       ⟨"it\\(", rlits "it("⟩,
       ⟨"jest", rlits "jest"⟩]),
     ("PyTest",
      [⟨"def test_", rlits "def test_"⟩,
       ⟨"pytest", rlits "pytest"⟩,
       ⟨"pytest", rlits "pytest"⟩]),
     ("JUnit",
      [⟨"@Test", rlits "@Test"⟩,
       ⟨"junit", rlits "junit"⟩,
       ⟨"junit", rlits "junit"⟩]),
     ("Mocha",
      [⟨"describe\\(", rlits "describe("⟩,
       ⟨"it\\(", rlits "it("⟩,
       ⟨"mocha", rlits "mocha"⟩])])]

/-! ## Python dicts of confidences, and the technology detector -/

/-- A Python dict from technology name to confidence: an insertion-ordered
association list with unique keys. -/
abbrev PyDict : Type := List (String × ℚ)

/-- d.get(k): the first (and, with unique keys, only) binding of k. -/
def dGet : PyDict → String → Option ℚ
  | [], _ => none
  | kv :: rest, k => if kv.1 = k then some kv.2 else dGet rest k

/-- d[k] = v: overwrite the binding in place or append a new one. -/
def dSet : PyDict → String → ℚ → PyDict
  | [], k, v => [(k, v)]
  | kv :: rest, k, v => if kv.1 = k then (kv.1, v) :: rest else kv :: dSet rest k v

/-- d.get(k, 0). -/
def valAt (d : PyDict) (k : String) : ℚ := (dGet d k).getD 0

/-- The keys of a dict. -/
def dKeys (d : PyDict) : List String := d.map (fun kv => kv.1)

/-- One pattern step of TechnologyDetector._analyze_file_content
(analyzer.py lines 500-504): skip patterns that start with an escaped dot
(none in the catalog does), count the findall matches and, when any, raise
the running confidence to min(count × 0.3, 1.0). -/
def afcPatternFold (content : String) (conf : ℚ) (p : RePat) : ℚ :=
  if pyStartsWith p.raw "\\." = true then conf
  else
    let n := reCount p.atoms content
    if 0 < n then max conf (min ((n : ℚ) * (3 / 10)) 1) else conf

/-- One technology step of _analyze_file_content (lines 497-507): fold the
patterns and record the technology only when its confidence is positive. -/
def afcTech (content : String) (d : PyDict) (tech : String × List RePat) : PyDict :=
  let c := tech.2.foldl (afcPatternFold content) 0
  if 0 < c then dSet d tech.1 c else d

/-- TechnologyDetector._analyze_file_content. -/
def analyzeFileContent (content : String) : PyDict :=
  technologyPatterns.foldl (fun d cat => cat.2.foldl (afcTech content) d) []

/-- One technology step of TechnologyDetector._analyze_dependency
(analyzer.py lines 516-521): when any pattern text occurs case-insensitively
inside the dependency name, record the fixed confidence 0.8 (the break only
stops further identical assignments). -/
def adTech (depLower : String) (d : PyDict) (tech : String × List RePat) : PyDict :=
  if tech.2.any (fun p => pyInStr (pyLower p.raw) depLower) then dSet d tech.1 (4 / 5)
  else d

/-- TechnologyDetector._analyze_dependency. -/
def analyzeDependency (depName : String) : PyDict :=
  technologyPatterns.foldl (fun d cat => cat.2.foldl (adTech (pyLower depName)) d) []

/-- One merge step of detect_technologies (analyzer.py lines 471-472 and
477-478): detected[tech] = max(detected.get(tech, 0), confidence). -/
def mergeMaxStep (d : PyDict) (kv : String × ℚ) : PyDict :=
  dSet d kv.1 (max (valAt d kv.1) kv.2)

/-- Merge a whole evidence dict into the accumulator, key by key. -/
def mergeMax (d m : PyDict) : PyDict := m.foldl mergeMaxStep d

/-- TechnologyDetector._get_technology_category: first category of the
catalog containing the technology name, else "other". -/
def getTechnologyCategory (tname : String) : String :=
  match technologyPatterns.find? (fun cat => cat.2.any (fun tech => tech.1 == tname)) with
  | some cat => cat.1
  | none => "other"

/-- The file-evidence pass of TechnologyDetector.detect_technologies
(analyzer.py lines 467-472); of each repo file only its content is consulted,
so files are given by their contents. -/
def detectFilesDict (files : List String) : PyDict :=
  files.foldl
    (fun d content => if content ≠ "" then mergeMax d (analyzeFileContent content) else d)
    []

/-- Both evidence passes of detect_technologies (lines 467-478). -/
def detectFullDict (files : List String) (deps : List Dep) : PyDict :=
  deps.foldl (fun d dep => mergeMax d (analyzeDependency dep.name)) (detectFilesDict files)

/-- TechnologyDetector.detect_technologies (lines 463-490): emit every
technology whose aggregated confidence strictly exceeds 0.1, with its
category. -/
def detectTechnologies (files : List String) (deps : List Dep) :
    List (String × String × ℚ) :=
  (detectFullDict files deps).filterMap
    (fun kv =>
      if (1 : ℚ) / 10 < kv.2 then some (kv.1, getTechnologyCategory kv.1, kv.2) else none)

/-- The confidence emitted for a technology name, when present. -/
def outConf (techs : List (String × String × ℚ)) (tname : String) : Option ℚ :=
  (techs.find? (fun x => x.1 == tname)).map (fun x => x.2.2)

/-- The evidence contribution of one file to one technology. -/
def fileContrib (content tname : String) : ℚ :=
  if content ≠ "" then valAt (analyzeFileContent content) tname else 0

/-- The evidence contribution of one dependency record to one technology. -/
def depContrib (dep : Dep) (tname : String) : ℚ :=
  valAt (analyzeDependency dep.name) tname

/-- All evidence contributions of a run for one technology, in input order. -/
def contribsFor (files : List String) (deps : List Dep) (tname : String) : List ℚ :=
  files.map (fun c => fileContrib c tname) ++ deps.map (fun dep => depContrib dep tname)

/-! ## Dict lemmas

The per-key value of the aggregation dict is a fold of max over the evidence
contributions; this section builds up to that. -/

/-- All stored confidences are non-negative. -/
def dictNonneg (d : PyDict) : Prop := ∀ kv ∈ d, (0 : ℚ) ≤ kv.2

/-- All stored confidences are strictly positive. -/
def dictPos (d : PyDict) : Prop := ∀ kv ∈ d, (0 : ℚ) < kv.2

/-- Unique keys together with positive values. -/
def dictInv (d : PyDict) : Prop := (dKeys d).Nodup ∧ dictPos d

theorem dictPos_nonneg {d : PyDict} (h : dictPos d) : dictNonneg d :=
  fun kv hkv => le_of_lt (h kv hkv)

theorem dGet_dSet_self (d : PyDict) (k : String) (v : ℚ) :
    dGet (dSet d k v) k = some v := by
  induction d with
  | nil => simp [dSet, dGet]
  | cons kv rest ih =>
      by_cases h : kv.1 = k
      · simp [dSet, dGet, h]
      · simp [dSet, dGet, h, ih]

theorem dGet_dSet_ne (d : PyDict) (k t : String) (v : ℚ) (h : t ≠ k) :
    dGet (dSet d k v) t = dGet d t := by
  have hkt : ¬ (k = t) := fun he => h he.symm
  induction d with
  | nil => simp [dSet, dGet, hkt]
  | cons kv rest ih =>
      by_cases hk : kv.1 = k
      · have hkvt : ¬ (kv.1 = t) := by rw [hk]; exact hkt
        simp [dSet, dGet, hk, hkvt, hkt]
      · by_cases hkv : kv.1 = t
        · simp [dSet, dGet, hk, hkv, h]
        · simp [dSet, dGet, hk, hkv, ih]

theorem mem_dKeys_dSet (d : PyDict) (k x : String) (v : ℚ) :
    x ∈ dKeys (dSet d k v) ↔ x ∈ dKeys d ∨ x = k := by
  induction d with
  | nil => simp [dSet, dKeys]
  | cons kv rest ih =>
      by_cases h : kv.1 = k
      · simp only [dSet, if_pos h, dKeys, List.map_cons, List.mem_cons]
        constructor
        · rintro (hx | hx)
          · exact Or.inl (Or.inl hx)
          · exact Or.inl (Or.inr hx)
        · rintro ((hx | hx) | hx)
          · exact Or.inl hx
          · exact Or.inr hx
          · exact Or.inl (hx.trans h.symm)
      · simp only [dSet, if_neg h, dKeys, List.map_cons, List.mem_cons]
        rw [show (List.map (fun kv => kv.1) (dSet rest k v)) = dKeys (dSet rest k v) from rfl,
          ih]
        tauto

theorem dKeys_nodup_dSet (d : PyDict) (k : String) (v : ℚ)
    (h : (dKeys d).Nodup) : (dKeys (dSet d k v)).Nodup := by
  induction d with
  | nil => simp [dSet, dKeys]
  | cons kv rest ih =>
      rw [dKeys, List.map_cons, List.nodup_cons] at h
      by_cases hk : kv.1 = k
      · simp only [dSet, if_pos hk, dKeys, List.map_cons, List.nodup_cons]
        exact ⟨h.1, h.2⟩
      · simp only [dSet, if_neg hk, dKeys, List.map_cons, List.nodup_cons]
        refine ⟨?_, ih h.2⟩
        rw [show (List.map (fun kv => kv.1) (dSet rest k v)) = dKeys (dSet rest k v) from rfl,
          mem_dKeys_dSet]
        rintro (hx | hx)
        · exact h.1 hx
        · exact hk hx

theorem dictPos_dSet (d : PyDict) (k : String) (v : ℚ) (hd : dictPos d) (hv : 0 < v) :
    dictPos (dSet d k v) := by
  induction d with
  | nil =>
      intro kv hkv
      simp only [dSet, List.mem_singleton] at hkv
      rw [hkv]
      exact hv
  | cons kv0 rest ih =>
      intro kv hkv
      by_cases hk : kv0.1 = k
      · simp only [dSet, if_pos hk, List.mem_cons] at hkv
        rcases hkv with hkv | hkv
        · rw [hkv]; exact hv
        · exact hd kv (List.mem_cons_of_mem kv0 hkv)
      · simp only [dSet, if_neg hk, List.mem_cons] at hkv
        rcases hkv with hkv | hkv
        · rw [hkv]; exact hd kv0 (List.mem_cons_self kv0 rest)
        · exact ih (fun kv2 hkv2 => hd kv2 (List.mem_cons_of_mem kv0 hkv2)) kv hkv

theorem dGet_mem (d : PyDict) (t : String) (v : ℚ) (h : dGet d t = some v) :
    (t, v) ∈ d := by
  induction d with
  | nil => simp [dGet] at h
  | cons kv rest ih =>
      by_cases hk : kv.1 = t
      · rw [dGet, if_pos hk] at h
        have hv : kv.2 = v := by injection h
        have : kv = (t, v) := by
          cases kv
          simp only at hk hv
          rw [hk, hv]
        rw [← this]
        exact List.mem_cons_self kv rest
      · rw [dGet, if_neg hk] at h
        exact List.mem_cons_of_mem kv (ih h)

theorem dGet_none_of_not_mem (d : PyDict) (t : String) (h : t ∉ dKeys d) :
    dGet d t = none := by
  induction d with
  | nil => rfl
  | cons kv rest ih =>
      rw [dKeys, List.map_cons, List.mem_cons] at h
      push_neg at h
      rw [dGet, if_neg (fun he => h.1 he.symm)]
      exact ih h.2

theorem valAt_nonneg {d : PyDict} (hd : dictNonneg d) (t : String) : 0 ≤ valAt d t := by
  rw [valAt]
  cases hg : dGet d t with
  | none => simp
  | some v =>
      simp only [Option.getD_some]
      exact hd (t, v) (dGet_mem d t v hg)

/-- A fold preserves an invariant preserved by every step on a list element. -/
theorem foldl_preserve_mem {α β : Type} (P : α → Prop) (f : α → β → α) :
    ∀ (l : List β), (∀ a b, b ∈ l → P a → P (f a b)) → ∀ a, P a → P (l.foldl f a) := by
  intro l
  induction l with
  | nil => intro _ a ha; exact ha
  | cons b bs ih =>
      intro hf a ha
      rw [List.foldl_cons]
      exact ih (fun a2 b2 hb2 => hf a2 b2 (List.mem_cons_of_mem b hb2)) (f a b)
        (hf a b (List.mem_cons_self b bs) ha)

/-- The per-file evidence dict has unique keys and positive confidences. -/
theorem analyzeFileContent_inv (content : String) : dictInv (analyzeFileContent content) := by
  rw [analyzeFileContent]
  apply foldl_preserve_mem dictInv _ technologyPatterns
  · intro d cat _ hd
    apply foldl_preserve_mem dictInv _ cat.2
    · intro d2 tech _ hd2
      rw [afcTech]
      by_cases hc : 0 < tech.2.foldl (afcPatternFold content) 0
      · rw [if_pos hc]
        exact ⟨dKeys_nodup_dSet d2 tech.1 _ hd2.1, dictPos_dSet d2 tech.1 _ hd2.2 hc⟩
      · rw [if_neg hc]
        exact hd2
    · exact hd
  · exact ⟨List.nodup_nil, fun kv hkv => absurd hkv (List.not_mem_nil kv)⟩

/-- The per-dependency evidence dict has unique keys and positive
confidences. -/
theorem analyzeDependency_inv (depName : String) : dictInv (analyzeDependency depName) := by
  rw [analyzeDependency]
  apply foldl_preserve_mem dictInv _ technologyPatterns
  · intro d cat _ hd
    apply foldl_preserve_mem dictInv _ cat.2
    · intro d2 tech _ hd2
      rw [adTech]
      by_cases hc : tech.2.any (fun p => pyInStr (pyLower p.raw) (pyLower depName)) = true
      · rw [if_pos hc]
        refine ⟨dKeys_nodup_dSet d2 tech.1 _ hd2.1, dictPos_dSet d2 tech.1 _ hd2.2 ?_⟩
        norm_num
      · rw [if_neg hc]
        exact hd2
    · exact hd
  · exact ⟨List.nodup_nil, fun kv hkv => absurd hkv (List.not_mem_nil kv)⟩

/-- Merging preserves unique keys and positive values, for positive-valued
evidence. -/
theorem mergeMax_inv (d m : PyDict) (hd : dictInv d) (hm : dictPos m) :
    dictInv (mergeMax d m) := by
  rw [mergeMax]
  apply foldl_preserve_mem dictInv mergeMaxStep m _ d hd
  intro d2 kv hkv hd2
  rw [mergeMaxStep]
  refine ⟨dKeys_nodup_dSet d2 kv.1 _ hd2.1, dictPos_dSet d2 kv.1 _ hd2.2 ?_⟩
  exact lt_of_lt_of_le (hm kv hkv) (le_max_right _ _)

/-- Setting a non-negative value keeps a dict non-negative. -/
theorem dictNonneg_dSet (d : PyDict) (k : String) (v : ℚ) (hd : dictNonneg d)
    (hv : 0 ≤ v) : dictNonneg (dSet d k v) := by
  induction d with
  | nil =>
      intro kv hkv
      simp only [dSet, List.mem_singleton] at hkv
      rw [hkv]
      exact hv
  | cons kv0 rest ih =>
      intro kv hkv
      by_cases hk : kv0.1 = k
      · simp only [dSet, if_pos hk, List.mem_cons] at hkv
        rcases hkv with hkv | hkv
        · rw [hkv]; exact hv
        · exact hd kv (List.mem_cons_of_mem kv0 hkv)
      · simp only [dSet, if_neg hk, List.mem_cons] at hkv
        rcases hkv with hkv | hkv
        · rw [hkv]; exact hd kv0 (List.mem_cons_self kv0 rest)
        · exact ih (fun kv2 hkv2 => hd kv2 (List.mem_cons_of_mem kv0 hkv2)) kv hkv

/-- Merging preserves non-negativity of the accumulator (the stored value is
a max with a non-negative one, whatever the merged values are). -/
theorem mergeMax_nonneg (d m : PyDict) (hd : dictNonneg d) :
    dictNonneg (mergeMax d m) := by
  rw [mergeMax]
  apply foldl_preserve_mem dictNonneg mergeMaxStep m _ d hd
  intro d2 kv _ hd2
  rw [mergeMaxStep]
  exact dictNonneg_dSet d2 kv.1 _ hd2
    (le_trans (valAt_nonneg hd2 kv.1) (le_max_left _ _))

/-- The key property of the aggregation: merging takes the pointwise max. -/
theorem valAt_mergeMax (m : PyDict) :
    ∀ (d : PyDict), (dKeys m).Nodup → dictNonneg d → dictNonneg m →
    ∀ t, valAt (mergeMax d m) t = max (valAt d t) (valAt m t) := by
  induction m with
  | nil =>
      intro d _ hd _ t
      rw [mergeMax, List.foldl_nil]
      have h0 : valAt [] t = 0 := rfl
      rw [h0, max_eq_left (valAt_nonneg hd t)]
  | cons kv rest ih =>
      intro d hnd hd hm t
      rw [dKeys, List.map_cons, List.nodup_cons] at hnd
      have hmrest : dictNonneg rest := fun kv2 h2 => hm kv2 (List.mem_cons_of_mem kv h2)
      have hvnn : (0 : ℚ) ≤ max (valAt d kv.1) kv.2 :=
        le_trans (valAt_nonneg hd kv.1) (le_max_left _ _)
      have hstep : mergeMax d (kv :: rest) = mergeMax (mergeMaxStep d kv) rest := by
        rw [mergeMax, List.foldl_cons, mergeMax]
      rw [hstep, ih (mergeMaxStep d kv) hnd.2
        (by rw [mergeMaxStep]; exact dictNonneg_dSet d kv.1 _ hd hvnn) hmrest t]
      by_cases ht : kv.1 = t
      · subst ht
        have h1 : valAt (mergeMaxStep d kv) kv.1 = max (valAt d kv.1) kv.2 := by
          rw [mergeMaxStep, valAt, dGet_dSet_self]
          rfl
        have h2 : valAt rest kv.1 = 0 := by
          rw [valAt, dGet_none_of_not_mem rest kv.1 hnd.1]
          rfl
        have h3 : valAt (kv :: rest) kv.1 = kv.2 := by
          simp only [valAt, dGet, if_pos rfl]
          rfl
        rw [h1, h2, h3, max_eq_left hvnn]
      · have h1 : valAt (mergeMaxStep d kv) t = valAt d t := by
          rw [mergeMaxStep, valAt, dGet_dSet_ne d kv.1 t _ (fun he => ht he.symm), valAt]
        have h3 : valAt (kv :: rest) t = valAt rest t := by
          simp only [valAt, dGet, if_neg ht]
        rw [h1, h3]

/-! ## The aggregated confidence is a fold of max over the contributions -/

theorem valAt_filesFold (t : String) :
    ∀ (files : List String) (d : PyDict), dictNonneg d →
    valAt (files.foldl
        (fun d content => if content ≠ "" then mergeMax d (analyzeFileContent content) else d)
        d) t
      = (files.map (fun c => fileContrib c t)).foldl max (valAt d t) := by
  intro files
  induction files with
  | nil =>
      intro d _
      simp
  | cons c rest ih =>
      intro d hd
      rw [List.foldl_cons, List.map_cons, List.foldl_cons]
      have hnn2 : dictNonneg (if c ≠ "" then mergeMax d (analyzeFileContent c) else d) := by
        by_cases hc : c ≠ ""
        · rw [if_pos hc]; exact mergeMax_nonneg _ _ hd
        · rw [if_neg hc]; exact hd
      rw [ih _ hnn2]
      congr 1
      by_cases hc : c ≠ ""
      · rw [if_pos hc]
        have hi := analyzeFileContent_inv c
        rw [valAt_mergeMax (analyzeFileContent c) d hi.1 hd (dictPos_nonneg hi.2) t,
          fileContrib, if_pos hc]
      · rw [if_neg hc, fileContrib, if_neg hc, max_eq_left (valAt_nonneg hd t)]

theorem valAt_depsFold (t : String) :
    ∀ (deps : List Dep) (d : PyDict), dictNonneg d →
    valAt (deps.foldl (fun d dep => mergeMax d (analyzeDependency dep.name)) d) t
      = (deps.map (fun dep => depContrib dep t)).foldl max (valAt d t) := by
  intro deps
  induction deps with
  | nil =>
      intro d _
      simp
  | cons dep rest ih =>
      intro d hd
      rw [List.foldl_cons, List.map_cons, List.foldl_cons]
      rw [ih _ (mergeMax_nonneg _ _ hd)]
      congr 1
      have hi := analyzeDependency_inv dep.name
      rw [valAt_mergeMax (analyzeDependency dep.name) d hi.1 hd (dictPos_nonneg hi.2) t]
      rfl

theorem detectFilesDict_nonneg (files : List String) : dictNonneg (detectFilesDict files) := by
  rw [detectFilesDict]
  apply foldl_preserve_mem dictNonneg _ files
  · intro d c _ hd
    show dictNonneg (if c ≠ "" then mergeMax d (analyzeFileContent c) else d)
    by_cases hc : c ≠ ""
    · rw [if_pos hc]; exact mergeMax_nonneg _ _ hd
    · rw [if_neg hc]; exact hd
  · exact fun kv hkv => absurd hkv (List.not_mem_nil kv)

theorem detectFilesDict_inv (files : List String) : dictInv (detectFilesDict files) := by
  rw [detectFilesDict]
  apply foldl_preserve_mem dictInv _ files
  · intro d c _ hd
    show dictInv (if c ≠ "" then mergeMax d (analyzeFileContent c) else d)
    by_cases hc : c ≠ ""
    · rw [if_pos hc]; exact mergeMax_inv d _ hd (analyzeFileContent_inv c).2
    · rw [if_neg hc]; exact hd
  · exact ⟨List.nodup_nil, fun kv hkv => absurd hkv (List.not_mem_nil kv)⟩

theorem detectFullDict_inv (files : List String) (deps : List Dep) :
    dictInv (detectFullDict files deps) := by
  rw [detectFullDict]
  apply foldl_preserve_mem dictInv _ deps
  · intro d dep _ hd
    show dictInv (mergeMax d (analyzeDependency dep.name))
    exact mergeMax_inv d _ hd (analyzeDependency_inv dep.name).2
  · exact detectFilesDict_inv files

/-- The aggregated value of a technology is the fold of max, starting at 0,
over all evidence contributions in input order. -/
theorem valAt_detectFullDict (files : List String) (deps : List Dep) (t : String) :
    valAt (detectFullDict files deps) t = (contribsFor files deps t).foldl max 0 := by
  rw [detectFullDict, contribsFor, List.foldl_append,
    valAt_depsFold t deps _ (detectFilesDict_nonneg files)]
  congr 1
  rw [detectFilesDict, valAt_filesFold t files []
    (fun kv hkv => absurd hkv (List.not_mem_nil kv))]
  rfl

/-! ## Folds of max -/

theorem le_foldl_max : ∀ (l : List ℚ) (b : ℚ), b ≤ l.foldl max b := by
  intro l
  induction l with
  | nil => intro b; simp
  | cons x xs ih =>
      intro b
      rw [List.foldl_cons]
      exact le_trans (le_max_left b x) (ih (max b x))

theorem foldl_max_ge_elem : ∀ (l : List ℚ) (b x : ℚ), x ∈ l → x ≤ l.foldl max b := by
  intro l
  induction l with
  | nil => intro b x hx; exact absurd hx (List.not_mem_nil x)
  | cons y ys ih =>
      intro b x hx
      rw [List.foldl_cons]
      rcases List.mem_cons.mp hx with h | h
      · rw [h]
        exact le_trans (le_max_right b y) (le_foldl_max ys (max b y))
      · exact ih (max b y) x h

theorem foldl_max_mem : ∀ (l : List ℚ) (b : ℚ), l.foldl max b = b ∨ l.foldl max b ∈ l := by
  intro l
  induction l with
  | nil => intro b; exact Or.inl rfl
  | cons y ys ih =>
      intro b
      rw [List.foldl_cons]
      rcases ih (max b y) with h | h
      · rw [h]
        rcases max_choice b y with h2 | h2
        · rw [h2]; exact Or.inl rfl
        · rw [h2]; exact Or.inr (List.mem_cons_self y ys)
      · exact Or.inr (List.mem_cons_of_mem y h)

theorem foldl_max_perm {l1 l2 : List ℚ} (h : l1.Perm l2) (b : ℚ) :
    l1.foldl max b = l2.foldl max b := by
  haveI : RightCommutative (max : ℚ → ℚ → ℚ) := ⟨fun a b c => Max.right_comm a b c⟩
  exact h.foldl_eq b

/-! ## The emitted confidence -/

/-- Looking a technology up in the emitted list is determined by its
aggregated value: present with that value exactly when it exceeds 0.1. -/
theorem outConf_filterMap :
    ∀ (d : PyDict), (dKeys d).Nodup → dictPos d → ∀ t : String,
    outConf (d.filterMap (fun kv =>
        if (1 : ℚ) / 10 < kv.2 then some (kv.1, getTechnologyCategory kv.1, kv.2) else none)) t
      = if (1 : ℚ) / 10 < valAt d t then some (valAt d t) else none := by
  intro d
  induction d with
  | nil =>
      intro _ _ t
      have h0 : valAt [] t = 0 := rfl
      rw [List.filterMap_nil, h0, if_neg (by norm_num)]
      rfl
  | cons kv rest ih =>
      intro hnd hpos t
      rw [dKeys, List.map_cons, List.nodup_cons] at hnd
      have hposrest : dictPos rest := fun kv2 h2 => hpos kv2 (List.mem_cons_of_mem kv h2)
      by_cases ht : kv.1 = t
      · subst ht
        have hval : valAt (kv :: rest) kv.1 = kv.2 := by
          simp only [valAt, dGet, if_pos rfl]
          rfl
        by_cases hth : (1 : ℚ) / 10 < kv.2
        · simp only [List.filterMap_cons, if_pos hth]
          rw [hval, if_pos hth, outConf, List.find?]
          simp
        · simp only [List.filterMap_cons, if_neg hth]
          rw [ih hnd.2 hposrest kv.1, hval, if_neg hth]
          have hv0 : valAt rest kv.1 = 0 := by
            rw [valAt, dGet_none_of_not_mem rest kv.1 hnd.1]
            rfl
          rw [hv0, if_neg (by norm_num)]
      · have hval : valAt (kv :: rest) t = valAt rest t := by
          simp only [valAt, dGet, if_neg ht]
        by_cases hth : (1 : ℚ) / 10 < kv.2
        · simp only [List.filterMap_cons, if_pos hth]
          rw [hval, ← ih hnd.2 hposrest t, outConf, List.find?]
          have hne : ((kv.1, getTechnologyCategory kv.1, kv.2).1 == t) = false := by
            simp [ht]
          rw [hne]
          rfl
        · simp only [List.filterMap_cons, if_neg hth]
          rw [ih hnd.2 hposrest t, hval]

/-- The emitted confidence of detect_technologies, as a function of the
aggregated value. -/
theorem outConf_detect (files : List String) (deps : List Dep) (t : String) :
    outConf (detectTechnologies files deps) t
      = if (1 : ℚ) / 10 < valAt (detectFullDict files deps) t
          then some (valAt (detectFullDict files deps) t) else none := by
  have hinv := detectFullDict_inv files deps
  rw [detectTechnologies]
  exact outConf_filterMap (detectFullDict files deps) hinv.1 hinv.2 t

/-- C5: whenever a technology is emitted with confidence c, c is the maximum
over all evidence contributions (every contribution is ≤ c, and c is one of
the contributions) — never their sum or average. -/
theorem c5_confidence_is_max (files : List String) (deps : List Dep) (t : String) (c : ℚ)
    (h : outConf (detectTechnologies files deps) t = some c) :
    (∀ x ∈ contribsFor files deps t, x ≤ c) ∧ c ∈ contribsFor files deps t := by
  rw [outConf_detect] at h
  by_cases hth : (1 : ℚ) / 10 < valAt (detectFullDict files deps) t
  · rw [if_pos hth] at h
    have hc : valAt (detectFullDict files deps) t = c := Option.some.inj h
    rw [valAt_detectFullDict] at hc hth
    constructor
    · intro x hx
      rw [← hc]
      exact foldl_max_ge_elem _ 0 x hx
    · rcases foldl_max_mem (contribsFor files deps t) 0 with hm | hm
      · rw [hm] at hth
        norm_num at hth
      · rw [← hc]
        exact hm
  · rw [if_neg hth] at h
    exact absurd h (by simp)

/-- Witness for C5 at a concrete run realising the 0.3/0.8 scenario: the file
content "flask" contributes 0.3 for Flask (one findall match of the pattern
"flask"), the dependency named "flask" contributes 0.8, and the emitted
confidence is exactly 0.8 = max(0.3, 0.8): it bounds all contributions and is
itself one of them. -/
theorem c5_confidence_is_max_witness :
    (∀ x ∈ contribsFor ["flask"] [⟨"flask", "*", "pip", false⟩] "Flask", x ≤ 4 / 5) ∧
      (4 / 5 : ℚ) ∈ contribsFor ["flask"] [⟨"flask", "*", "pip", false⟩] "Flask" :=
  c5_confidence_is_max ["flask"] [⟨"flask", "*", "pip", false⟩] "Flask" (4 / 5)
    (by with_unfolding_all decide)

/-- C6: technology scoring is order-independent — permuting the analyzed
files and permuting the dependency records leaves the confidence computed for
every technology name unchanged. -/
theorem c6_scoring_order_invariant (files1 files2 : List String) (deps1 deps2 : List Dep)
    (hf : files1.Perm files2) (hd : deps1.Perm deps2) (t : String) :
    outConf (detectTechnologies files1 deps1) t
      = outConf (detectTechnologies files2 deps2) t := by
  rw [outConf_detect, outConf_detect]
  have hval : valAt (detectFullDict files1 deps1) t
      = valAt (detectFullDict files2 deps2) t := by
    rw [valAt_detectFullDict, valAt_detectFullDict, contribsFor, contribsFor]
    exact foldl_max_perm (List.Perm.append (hf.map _) (hd.map _)) 0
  rw [hval]

/-- Witness for C6 at a concrete pair of permuted runs. -/
theorem c6_scoring_order_invariant_witness :
    outConf (detectTechnologies ["flask", "import django"]
        [⟨"react", "*", "npm", false⟩, ⟨"redis", "*", "npm", false⟩]) "Flask"
      = outConf (detectTechnologies ["import django", "flask"]
        [⟨"redis", "*", "npm", false⟩, ⟨"react", "*", "npm", false⟩]) "Flask" :=
  c6_scoring_order_invariant ["flask", "import django"] ["import django", "flask"]
    [⟨"react", "*", "npm", false⟩, ⟨"redis", "*", "npm", false⟩]
    [⟨"redis", "*", "npm", false⟩, ⟨"react", "*", "npm", false⟩]
    (List.Perm.swap "import django" "flask" [])
    (List.Perm.swap (⟨"redis", "*", "npm", false⟩ : Dep) (⟨"react", "*", "npm", false⟩ : Dep) [])
    "Flask"

end CodebaseGenius
